import Mathlib

/-!
# conn_third: host-transport connection backend of libjuice

A shallow embedding of `src/conn_third.c` and the properties of its
specification.

* C strings are lists of characters (the bytes before the terminating NUL).
* Calls into code that is not part of `conn_third.c` (`addr_to_string`,
  `addr_get_port`, `addr_resolve`, `calloc`, `thread_init`, `agent_conn_update`,
  `current_timestamp`, the host callbacks) are inputs of the embedded functions.
* Every embedded function returns, next to its C return value, the list of the
  external calls and memory writes it performed, in program order.
-/

namespace ConnThird

/-! ## Data model -/

/-- A C string: the characters stored before the terminating NUL. -/
abbrev CStr := List Char

/-- A byte buffer handed through to the host (`const char *data`). -/
abbrev Bytes := List Nat

/-- Modelled from the spec: the type `timestamp_t` of `timestamp.h`, which is not
among the sources: a point of the monotonic clock, in milliseconds. -/
abbrev timestamp_t := Int

/-- Modelled from the spec: the type `addr_record_t` of `addr.h`, which is not
among the sources: a concrete address record, the bytes of a socket address and
their number. -/
structure addr_record_t where
  addr : List Nat
  len : Nat
  deriving DecidableEq, Repr

/-- The text `snprintf(buf, 56, "%d", v)` leaves in `buf` for `0 ≤ v < 65536`. -/
def fmt_d (v : Nat) : CStr := Nat.toDigits 10 v

/-- The two address utilities of `addr.h` that `conn_third_send` calls.
`addr_to_string r n` is the C string found in a buffer of `n` bytes after
`addr_to_string(r, buffer, n)`; `addr_get_port r` is the port of the record. -/
structure addr_api where
  addr_to_string : addr_record_t → Nat → CStr
  addr_get_port : addr_record_t → Nat

/-- The host callback `cb_third_send(data, size, addr, port, user_ptr)`. -/
abbrev cb_third_send_t := Bytes → Nat → CStr → Nat → Nat → Int

/-- The host callback `cb_third_get_addrs(&addrs, max_count, addr_len, &port, user_ptr)`:
the texts it leaves in the scratch buffers, in slot order, and the port it stores. -/
abbrev cb_third_get_addrs_t := Nat → Nat → Nat → List CStr × Nat

/-- The fields of `agent->config` that `conn_third.c` reads. A callback that is
not registered is a null pointer, here `none`. -/
structure juice_config_t where
  cb_third_send : Option cb_third_send_t
  cb_third_get_addrs : Option cb_third_get_addrs_t
  user_ptr : Nat

/-! ## conn_third_send -/

/-- An external call or buffer write made by `conn_third_send`. -/
inductive SendEv where
  | addr_to_string (dst : addr_record_t) (buflen : Nat)
  | addr_get_port (dst : addr_record_t)
  | memset_zero (offset : Int)
  | cb_third_send (data : Bytes) (size : Nat) (addr : CStr) (port : Nat) (user_ptr : Nat)
  deriving DecidableEq, Repr

/-- Is the event an invocation of the host send callback? -/
def SendEv.is_cb : SendEv → Bool
  | .cb_third_send _ _ _ _ _ => true
  | _ => false

/-- Return value and event trace of one `conn_third_send` call. -/
structure SendOutcome where
  ret : Int
  events : List SendEv
  deriving DecidableEq, Repr

/-- The C string held by a char array after `memset(array + offset, 0, 1)`:
a byte inside the string cuts it there; a write that falls before the array
leaves the array as it is. -/
def memset_zero (s : CStr) (offset : Int) : CStr :=
  if 0 ≤ offset then s.take offset.toNat else s

/-- The function `conn_third_send` (conn_third.c:131-144). The argument `ds` is
accepted and not used. -/
def conn_third_send (api : addr_api) (config : juice_config_t) (dst : addr_record_t)
    (data : Bytes) (size : Nat) (_ds : Int) : SendOutcome :=
  match config.cb_third_send with
  | some cb =>
    let addr := api.addr_to_string dst 128
    let port := api.addr_get_port dst % 65536
    let strPort : CStr := ':' :: fmt_d port
    let offset : Int := (addr.length : Int) - (strPort.length : Int)
    let addr := memset_zero addr offset
    { ret := cb data size addr port config.user_ptr
      events := [.addr_to_string dst 128, .addr_get_port dst, .memset_zero offset,
                 .cb_third_send data size addr port config.user_ptr] }
  | none => { ret := -1, events := [] }

/-- An address API under which every record prints as `198.51.100.7:9000`. -/
def demo_api : addr_api where
  addr_to_string := fun _ _ => "198.51.100.7:9000".toList
  addr_get_port := fun _ => 9000

/-- A host send callback that reports the size it was given. -/
def demo_send_cb : cb_third_send_t := fun _ size _ _ _ => (size : Int)

/-- A configuration with `demo_send_cb` registered. -/
def demo_config : juice_config_t where
  cb_third_send := some demo_send_cb
  cb_third_get_addrs := none
  user_ptr := 77

/-- Some destination record. -/
def demo_dst : addr_record_t := ⟨[2, 0, 35, 40, 198, 51, 100, 7], 16⟩

/-! ## conn_third_get_addrs -/

/-- The socket kinds of `socket.h` that matter to address resolution. -/
inductive socktype where
  | SOCK_STREAM
  | SOCK_DGRAM
  deriving DecidableEq, Repr

/-- What one `addr_resolve` call does: its return value and the records it
stores, consecutively, from the `records` pointer it was given. -/
structure ResolveOut where
  ret : Int
  written : List addr_record_t
  deriving DecidableEq, Repr

/-- The resolver `addr_resolve(hostname, service, socktype, records, count)` of
`addr.h`, as a function of the host name, service, socket kind and `count`. -/
abbrev addr_resolve_t := CStr → CStr → socktype → Nat → ResolveOut

/-- The number of values of `size_t` (64-bit). -/
def SIZE_T_MOD : Nat := 2 ^ 64

/-- The difference `a - b` of two `size_t` values, as C computes it. -/
def size_sub (a b : Nat) : Nat := (a % SIZE_T_MOD + SIZE_T_MOD - b % SIZE_T_MOD) % SIZE_T_MOD

/-- One `addr_resolve` call made by `conn_third_get_addrs`: `offset` is the
index of `records + records_count` in the caller's buffer. -/
structure ResolveCall where
  hostname : CStr
  service : CStr
  kind : socktype
  offset : Nat
  count : Nat
  deriving DecidableEq, Repr

/-- The slots of the caller's buffer that receive `rs` when they are stored
consecutively from index `base`. -/
def place (base : Nat) : List addr_record_t → List (Nat × addr_record_t)
  | [] => []
  | r :: rs => (base, r) :: place (base + 1) rs

/-- The loop variable `records_count` with the resolver calls and the buffer
writes performed so far. -/
structure AddrsState where
  records_count : Nat
  calls : List ResolveCall
  writes : List (Nat × addr_record_t)
  deriving DecidableEq, Repr

/-- The body of the second loop of `conn_third_get_addrs` (conn_third.c:163-167)
for the scratch entry `a`. -/
def get_addrs_step (resolve : addr_resolve_t) (strPort : CStr) (size : Nat)
    (st : AddrsState) (a : CStr) : AddrsState :=
  if a.length ≠ 0 then
    let count := size_sub size st.records_count
    let out := resolve a strPort .SOCK_DGRAM count
    { records_count := if 0 < out.ret then st.records_count + 1 else st.records_count
      calls := st.calls ++ [⟨a, strPort, .SOCK_DGRAM, st.records_count, count⟩]
      writes := st.writes ++ place st.records_count out.written }
  else st

/-- The scratch array `addrs` after the host callback: `n` buffers that were
zeroed, of which the host filled the leading ones with `texts`. -/
def scratch (n : Nat) (texts : List CStr) : List CStr :=
  (List.range n).map (fun i => texts.getD i [])

/-- Return value, resolver calls and buffer writes of one `conn_third_get_addrs`
call. A write is an index into `records` with the record stored there. -/
structure AddrsOutcome where
  ret : Int
  calls : List ResolveCall
  writes : List (Nat × addr_record_t)
  deriving DecidableEq, Repr

/-- The function `conn_third_get_addrs` (conn_third.c:146-173), with the constant
`ICE_MAX_CANDIDATES_COUNT` of `ice.h` as its first argument. The statements
after the unconditional `return 0` are unreachable and not embedded. -/
def conn_third_get_addrs (ICE_MAX_CANDIDATES_COUNT : Nat) (resolve : addr_resolve_t)
    (config : juice_config_t) (size : Nat) : AddrsOutcome :=
  match config.cb_third_get_addrs with
  | some cb =>
    let filled := cb (ICE_MAX_CANDIDATES_COUNT - 1) 128 config.user_ptr
    let addrs := scratch (ICE_MAX_CANDIDATES_COUNT - 1) filled.1
    let strPort := fmt_d (filled.2 % 65536)
    let st := addrs.foldl (get_addrs_step resolve strPort size) ⟨0, [], []⟩
    { ret := st.records_count, calls := st.calls, writes := st.writes }
  | none => { ret := 0, calls := [], writes := [] }

/-- The records a buffer of `size` slots holds after the writes `ws`, oldest
first: slot `i` holds the record of the last write to `i`. -/
def buffer_after (ws : List (Nat × addr_record_t)) (i : Nat) : Option addr_record_t :=
  ((ws.reverse.find? (fun w => w.1 = i)).map Prod.snd)

/-- The record a literal IPv4 text stands for in the examples: its characters. -/
def demo_record (a : CStr) : addr_record_t := ⟨a.map Char.toNat, 16⟩

/-- A resolver in the manner of `addr_resolve` of `addr.c`: every name resolves
to one address, the return value counts the addresses found, and a record is
stored only while `count` leaves room. -/
def demo_resolve_one : addr_resolve_t := fun hostname _ _ count =>
  { ret := 1, written := if 0 < count then [demo_record hostname] else [] }

/-- The addresses a host name has in the examples: `localhost` has two (as a
dual-stack name has), every other name has one. -/
def demo_lookup (hostname : CStr) : List addr_record_t :=
  if hostname = "localhost".toList then
    [demo_record "127.0.0.1".toList, demo_record "::1".toList]
  else [demo_record hostname]

/-- A resolver in the manner of `addr_resolve` of `addr.c` over `demo_lookup`:
the return value counts the addresses found, and the first `count` of them are
stored. -/
def demo_resolve_dual : addr_resolve_t := fun hostname _ _ count =>
  { ret := (demo_lookup hostname).length, written := (demo_lookup hostname).take count }

/-- A configuration whose get-addresses callback reports `texts` and `port`. -/
def addrs_config (texts : List CStr) (port : Nat) : juice_config_t where
  cb_third_send := none
  cb_third_get_addrs := some (fun _ _ _ => (texts, port))
  user_ptr := 77

/-! ## Lock, backend state and lifecycle -/

/-- The threads that touch one backend state: the worker started by
`conn_third_init`, the thread that calls `conn_third_cleanup`, and a further
thread of the host that calls `conn_third_interrupt`. -/
inductive Tid where
  | runner
  | caller
  | user
  deriving DecidableEq, Repr

/-- Modelled from the spec: the type `mutex_t` of `thread.h`, which is not among
the sources, initialised as `MUTEX_RECURSIVE`: a reentrant lock. `held` is
`none` while the lock is free and `some (t, n)` while thread `t` holds it
`n + 1` times. -/
structure mutex_t where
  held : Option (Tid × Nat)
  deriving DecidableEq, Repr

/-- Modelled from the spec: `mutex_init(&m, MUTEX_RECURSIVE)` of `thread.h`:
the lock starts free. -/
def mutex_init : mutex_t := ⟨none⟩

/-- Modelled from the spec: `mutex_lock` of `thread.h` on a reentrant lock, called
by thread `t`: a free lock is taken, a lock already held by `t` is entered once
more, and `none` says that `t` has to wait because another thread holds it. -/
def mutex_lock (t : Tid) (m : mutex_t) : Option mutex_t :=
  match m.held with
  | none => some ⟨some (t, 0)⟩
  | some (o, n) => if o = t then some ⟨some (t, n + 1)⟩ else none

/-- Modelled from the spec: `mutex_unlock` of `thread.h` on a reentrant lock,
called by thread `t`: one hold of `t` is given back, the last one frees the lock;
`none` says that `t` does not hold the lock. -/
def mutex_unlock (t : Tid) (m : mutex_t) : Option mutex_t :=
  match m.held with
  | none => none
  | some (o, 0) => if o = t then some ⟨none⟩ else none
  | some (o, n + 1) => if o = t then some ⟨some (t, n)⟩ else none

/-- How many times thread `t` holds the lock. -/
def hold_count (t : Tid) (m : mutex_t) : Nat :=
  match m.held with
  | none => 0
  | some (o, n) => if o = t then n + 1 else 0

/-- The struct `conn_impl_t` (conn_third.c:27-32). `thread` is the handle
stored by `thread_init`. -/
structure conn_impl_t where
  thread : Nat
  next_timestamp : timestamp_t
  mutex : mutex_t
  stopped : Bool
  deriving DecidableEq, Repr

/-- The field of `juice_agent_t` that the lifecycle functions use: the pointer
`agent->conn_impl`, `none` when it is null. -/
structure juice_agent_t where
  conn_impl : Option conn_impl_t
  deriving DecidableEq, Repr

/-- A call made by `conn_third_init` into the C library or `thread.h`. -/
inductive InitEv where
  | calloc (ok : Bool)
  | mutex_init
  | thread_init (ret : Int)
  | free
  deriving DecidableEq, Repr

/-- Return value of `conn_third_init`, the agent it leaves and the calls it made. -/
structure InitOutcome where
  ret : Int
  agent : juice_agent_t
  events : List InitEv
  deriving DecidableEq, Repr

/-- The function `conn_third_init` (conn_third.c:43-64). `calloc_ok` says whether
`calloc` returned a block; `thread_init_ret` and `handle` are the return value of
`thread_init` and the handle it stores when it succeeds. The arguments `registry`
and `config` are not used by the function. -/
def conn_third_init (agent : juice_agent_t) (calloc_ok : Bool) (thread_init_ret : Int)
    (handle : Nat) : InitOutcome :=
  if calloc_ok then
    let conn_impl : conn_impl_t :=
      { thread := 0, next_timestamp := 0, mutex := mutex_init, stopped := false }
    let agent := { agent with conn_impl := some conn_impl }
    if thread_init_ret ≠ 0 then
      { ret := -1, agent := { agent with conn_impl := none }
        events := [.calloc true, .mutex_init, .thread_init thread_init_ret, .free] }
    else
      { ret := 0, agent := { agent with conn_impl := some { conn_impl with thread := handle } }
        events := [.calloc true, .mutex_init, .thread_init thread_init_ret] }
  else
    { ret := -1, agent := agent, events := [.calloc false] }

/-- The function `conn_third_interrupt` (conn_third.c:94-102) called by thread `t`
on the state `agent->conn_impl` points to, `now` being the value of
`current_timestamp()`. The result is the state it leaves and its return value;
`none` says that `t` has to wait for the lock. -/
def conn_third_interrupt (t : Tid) (now : timestamp_t) (conn_impl : conn_impl_t) :
    Option (conn_impl_t × Int) :=
  match mutex_lock t conn_impl.mutex with
  | none => none
  | some m =>
    let conn_impl := { conn_impl with mutex := m }
    let conn_impl := { conn_impl with next_timestamp := now }
    match mutex_unlock t conn_impl.mutex with
    | none => none
    | some m => some ({ conn_impl with mutex := m }, 0)

/-! ## The worker loop and its interleavings -/

/-- The statements of `conn_third_interrupt`, by line of conn_third.c. -/
inductive IntPc where
  | L97
  | L98
  | L99
  deriving DecidableEq, Repr

/-- The statements of `conn_third_run`, by line of conn_third.c. `L119` is the
point before `agent_conn_update` is entered, `L119_ret` the point where it
returns, `L127` the point after the loop. -/
inductive RunPc where
  | L107
  | L109
  | L110
  | L111
  | L114
  | L116
  | L118
  | L119
  | L119_ret
  | L127
  deriving DecidableEq, Repr

/-- The statements of `conn_third_cleanup`, by line of conn_third.c. `L73` is the
call of `conn_third_interrupt`, `done` the point after the function returned. -/
inductive CleanPc where
  | L69
  | L70
  | L71
  | L73 (p : IntPc)
  | L76
  | L78
  | done
  deriving DecidableEq, Repr

/-- What a trace records. `held` says whether the acting thread holds the lock
at that point; `update_start` also records the value `stopped` has when
`agent_conn_update` is entered. -/
inductive Ev where
  | write_next (t : Tid) (held : Bool)
  | write_stopped (t : Tid) (held : Bool)
  | update_start (stopped : Bool) (held : Bool)
  | update_ret (ret : Int)
  deriving DecidableEq, Repr

/-- The shared state with the position of every thread and the trace so far.
`freed` says that `conn_third_cleanup` has released the state. -/
structure Sys where
  impl : conn_impl_t
  freed : Bool
  run_pc : RunPc
  clean_pc : CleanPc
  user_pc : IntPc
  log : List Ev
  deriving DecidableEq, Repr

/-- One scheduling decision: the thread that executes its next statement, and
the values the environment supplies to that statement if it asks for them: the
clock reading `now`, and the return value `ret` and deadline `next` that
`agent_conn_update` produces. -/
structure Tick where
  who : Tid
  now : timestamp_t
  ret : Int
  next : timestamp_t
  deriving DecidableEq, Repr

/-- Does thread `t` hold the lock? -/
def holds (t : Tid) (s : Sys) : Bool := decide (0 < hold_count t s.impl.mutex)

/-- Thread `t` executes `mutex_lock`; it stays where it is while it has to wait. -/
def sys_lock (t : Tid) (s : Sys) (k : Sys → Sys) : Sys :=
  match mutex_lock t s.impl.mutex with
  | some m => k { s with impl := { s.impl with mutex := m } }
  | none => s

/-- Thread `t` executes `mutex_unlock`. -/
def sys_unlock (t : Tid) (s : Sys) (k : Sys → Sys) : Sys :=
  match mutex_unlock t s.impl.mutex with
  | some m => k { s with impl := { s.impl with mutex := m } }
  | none => s

/-- Thread `t` executes line 98, `conn_impl->next_timestamp = current_timestamp()`. -/
def sys_write_now (t : Tid) (now : timestamp_t) (s : Sys) : Sys :=
  { s with impl := { s.impl with next_timestamp := now }
           log := s.log ++ [.write_next t (holds t s)] }

/-- The next statement of `conn_third_run` (conn_third.c:104-129). -/
def run_step (tk : Tick) (s : Sys) : Sys :=
  match s.run_pc with
  | .L107 => { sys_write_now .runner tk.now s with run_pc := .L109 }
  | .L109 => sys_lock .runner s (fun s => { s with run_pc := .L110 })
  | .L110 => if s.impl.stopped then { s with run_pc := .L111 } else { s with run_pc := .L114 }
  | .L111 => sys_unlock .runner s (fun s => { s with run_pc := .L127 })
  | .L114 => sys_unlock .runner s (fun s => { s with run_pc := .L116 })
  | .L116 => { s with run_pc := .L118 }
  | .L118 =>
    if s.impl.next_timestamp ≤ tk.now then { s with run_pc := .L119 }
    else { s with run_pc := .L109 }
  | .L119 =>
    { s with run_pc := .L119_ret
             log := s.log ++ [.update_start s.impl.stopped (holds .runner s)] }
  | .L119_ret =>
    { s with impl := { s.impl with next_timestamp := tk.next }
             log := s.log ++ [.write_next .runner (holds .runner s), .update_ret tk.ret]
             run_pc := if tk.ret ≠ 0 then .L127 else .L109 }
  | .L127 => s

/-- The next statement of `conn_third_cleanup` (conn_third.c:66-82). At line 76,
`thread_join` waits until the worker has left `conn_third_run`. -/
def clean_step (tk : Tick) (s : Sys) : Sys :=
  match s.clean_pc with
  | .L69 => sys_lock .caller s (fun s => { s with clean_pc := .L70 })
  | .L70 =>
    { s with impl := { s.impl with stopped := true }
             log := s.log ++ [.write_stopped .caller (holds .caller s)]
             clean_pc := .L71 }
  | .L71 => sys_unlock .caller s (fun s => { s with clean_pc := .L73 .L97 })
  | .L73 .L97 => sys_lock .caller s (fun s => { s with clean_pc := .L73 .L98 })
  | .L73 .L98 => { sys_write_now .caller tk.now s with clean_pc := .L73 .L99 }
  | .L73 .L99 => sys_unlock .caller s (fun s => { s with clean_pc := .L76 })
  | .L76 => if s.run_pc = .L127 then { s with clean_pc := .L78 } else s
  | .L78 => { s with freed := true, clean_pc := .done }
  | .done => s

/-- The next statement of a host thread that calls `conn_third_interrupt`
(conn_third.c:94-102) again and again. -/
def user_step (tk : Tick) (s : Sys) : Sys :=
  match s.user_pc with
  | .L97 => sys_lock .user s (fun s => { s with user_pc := .L98 })
  | .L98 => { sys_write_now .user tk.now s with user_pc := .L99 }
  | .L99 => sys_unlock .user s (fun s => { s with user_pc := .L97 })

/-- One step of the system: the scheduled thread executes its next statement
(nothing changes when it is waiting or has finished). -/
def step (s : Sys) (tk : Tick) : Sys :=
  match tk.who with
  | .runner => run_step tk s
  | .caller => clean_step tk s
  | .user => user_step tk s

/-- The system right after a successful `conn_third_init`: the state is zeroed,
the lock is free, the worker is about to execute line 107. -/
def Sys.init : Sys :=
  { impl := { thread := 1, next_timestamp := 0, mutex := mutex_init, stopped := false }
    freed := false, run_pc := .L107, clean_pc := .L69, user_pc := .L97, log := [] }

/-- The system after the schedule `ticks`. -/
def exec (ticks : List Tick) : Sys := ticks.foldl step Sys.init

/-- Is the event the start of an `agent_conn_update` call made while `stopped`
is already set? -/
def Ev.start_after_stop : Ev → Bool
  | .update_start true _ => true
  | _ => false

/-- Is the event the start of an `agent_conn_update` call? -/
def Ev.is_start : Ev → Bool
  | .update_start _ _ => true
  | _ => false

/-- The return values of the completed `agent_conn_update` calls of a trace. -/
def update_rets (log : List Ev) : List Int :=
  log.filterMap (fun e => match e with | .update_ret r => some r | _ => none)

/-- A statement of the worker, with the clock at `now`. -/
def tick_run (now : timestamp_t) : Tick := ⟨.runner, now, 0, now + 10⟩

/-- The return of `agent_conn_update` with value `ret`. -/
def tick_ret (now : timestamp_t) (ret : Int) : Tick := ⟨.runner, now, ret, now + 10⟩

/-- A statement of the thread in `conn_third_cleanup`, with the clock at `now`. -/
def tick_clean (now : timestamp_t) : Tick := ⟨.caller, now, 0, 0⟩

/-- A schedule in which cleanup sets `stopped` and interrupts while the worker
sleeps at line 116 of its first cycle. -/
def race_ticks : List Tick :=
  [tick_run 0, tick_run 0, tick_run 0, tick_run 0,
   tick_clean 5, tick_clean 5, tick_clean 5, tick_clean 6, tick_clean 6, tick_clean 6,
   tick_run 20, tick_run 20, tick_run 20]

/-- One full cycle of the worker in which the deadline is due and
`agent_conn_update` returns `ret`: lines 109, 110, 114, 116, 118, 119 and the
return. -/
def cycle_ticks (now : timestamp_t) (ret : Int) : List Tick :=
  [tick_run now, tick_run now, tick_run now, tick_run now, tick_run (now + 20),
   tick_run (now + 20), tick_ret (now + 20) ret]

/-- A schedule in which the third `agent_conn_update` call is the first to fail,
followed by further scheduling of the worker. -/
def third_fails_ticks : List Tick :=
  tick_run 0 :: (cycle_ticks 0 0 ++ cycle_ticks 100 0 ++ cycle_ticks 200 5
    ++ cycle_ticks 300 0)

/-- The positions of the worker from which the `agent_conn_update` call of the
current cycle can still be reached without another check of `stopped`. -/
def RunPc.before_update : RunPc → Bool
  | .L107 | .L114 | .L116 | .L118 | .L119 => true
  | _ => false

/-- The invariant behind the bound on calls started after the stop request. -/
def Inv6 (s : Sys) : Prop :=
  s.log.countP Ev.start_after_stop ≤ 1 ∧
  (s.impl.stopped = false → s.log.countP Ev.start_after_stop = 0) ∧
  (s.run_pc.before_update = true → s.log.countP Ev.start_after_stop = 0)

/-- What a step of a thread other than the worker leaves unchanged. -/
def Frame (s s' : Sys) : Prop :=
  s'.run_pc = s.run_pc ∧
  s'.log.countP Ev.start_after_stop = s.log.countP Ev.start_after_stop ∧
  s'.log.countP Ev.is_start = s.log.countP Ev.is_start ∧
  update_rets s'.log = update_rets s.log ∧
  (s'.impl.stopped = false → s.impl.stopped = false)

/-- The invariant behind the failure property of the worker loop: the calls
started and returned match, and only the last returned call can have failed,
which the worker then has left the loop for. -/
def Inv7 (s : Sys) : Prop :=
  (s.run_pc = .L119_ret → s.log.countP Ev.is_start = (update_rets s.log).length + 1) ∧
  (s.run_pc ≠ .L119_ret → s.log.countP Ev.is_start = (update_rets s.log).length) ∧
  (s.run_pc ≠ .L127 → ∀ r ∈ update_rets s.log, r = 0) ∧
  (∀ r ∈ (update_rets s.log).dropLast, r = 0)

/-- A state whose lock the calling host thread already holds twice, with a
deadline scheduled far ahead. -/
def demo_impl : conn_impl_t :=
  { thread := 1, next_timestamp := 10000, mutex := ⟨some (.user, 1)⟩, stopped := false }

/-! ## Theorems: conn_third_send -/

theorem memset_zero_suffix (host suffix : CStr) :
    memset_zero (host ++ suffix)
      (((host ++ suffix).length : Int) - (suffix.length : Int)) = host := by
  have h : (((host ++ suffix).length : Int) - (suffix.length : Int)) = (host.length : Int) := by
    simp
  rw [h]
  simp [memset_zero]

/-- C2: when the text form of the destination is a host text followed by `:` and
the decimal port, `conn_third_send` invokes the host send callback exactly once,
with the address text equal to the host text and the port equal to the
destination's port. -/
theorem conn_third_send_strips_port (api : addr_api) (config : juice_config_t)
    (cb : cb_third_send_t) (dst : addr_record_t) (data : Bytes) (size : Nat) (ds : Int)
    (host : CStr) (port : Nat)
    (hcb : config.cb_third_send = some cb)
    (hport : api.addr_get_port dst = port) (hrange : port < 65536)
    (htext : api.addr_to_string dst 128 = host ++ ':' :: fmt_d port) :
    (conn_third_send api config dst data size ds).events.filter SendEv.is_cb
      = [.cb_third_send data size host port config.user_ptr] := by
  have hmod : port % 65536 = port := Nat.mod_eq_of_lt hrange
  have hcut := memset_zero_suffix host (':' :: fmt_d port)
  simp only [conn_third_send, hcb, hport, hmod, htext, hcut]
  simp [SendEv.is_cb]

theorem conn_third_send_scenario :
    (conn_third_send demo_api demo_config demo_dst [1, 2, 3] 3 0).events.filter SendEv.is_cb
      = [.cb_third_send [1, 2, 3] 3 "198.51.100.7".toList 9000 77] :=
  conn_third_send_strips_port demo_api demo_config demo_send_cb demo_dst [1, 2, 3] 3 0
    "198.51.100.7".toList 9000 rfl rfl (by decide) (by decide)

/-- C5: without a registered send callback `conn_third_send` returns -1 and
performs no conversion and no callback invocation; with a registered callback it
invokes it exactly once, with the caller's data, size and user pointer, and
returns the code of that invocation unchanged. -/
theorem conn_third_send_return (api : addr_api) (config : juice_config_t)
    (dst : addr_record_t) (data : Bytes) (size : Nat) (ds : Int) :
    (config.cb_third_send = none →
      conn_third_send api config dst data size ds = { ret := -1, events := [] }) ∧
    (∀ cb, config.cb_third_send = some cb →
      ∃ addr port,
        (conn_third_send api config dst data size ds).events.filter SendEv.is_cb
          = [.cb_third_send data size addr port config.user_ptr] ∧
        (conn_third_send api config dst data size ds).ret
          = cb data size addr port config.user_ptr) := by
  constructor
  · intro h
    simp [conn_third_send, h]
  · intro cb h
    refine ⟨memset_zero (api.addr_to_string dst 128)
      (((api.addr_to_string dst 128).length : Int)
        - ((':' :: fmt_d (api.addr_get_port dst % 65536)).length : Int)),
      api.addr_get_port dst % 65536, ?_, ?_⟩
    · simp [conn_third_send, h, SendEv.is_cb]
    · simp [conn_third_send, h]

theorem conn_third_send_return_demo :
    conn_third_send demo_api { demo_config with cb_third_send := none } demo_dst [1, 2, 3] 3 0
        = { ret := -1, events := [] } ∧
    (conn_third_send demo_api demo_config demo_dst [1, 2, 3] 3 0).ret = 3 := by
  refine ⟨(conn_third_send_return demo_api { demo_config with cb_third_send := none }
      demo_dst [1, 2, 3] 3 0).1 rfl, ?_⟩
  obtain ⟨addr, port, _, h⟩ :=
    (conn_third_send_return demo_api demo_config demo_dst [1, 2, 3] 3 0).2 demo_send_cb rfl
  rw [h]
  rfl

/-! ## Theorems: conn_third_get_addrs -/

theorem scratch_eq (n : Nat) (texts : List CStr) (h : texts.length ≤ n) :
    scratch n texts = texts ++ List.replicate (n - texts.length) [] := by
  apply List.ext_getElem
  · simp [scratch]; omega
  · intro i h1 h2
    simp only [scratch, List.getElem_map, List.getElem_range]
    by_cases hi : i < texts.length
    · rw [List.getElem_append_left hi]
      simp [List.getD_eq_getElem?_getD, hi]
    · rw [List.getElem_append_right (by omega)]
      simp [List.getD_eq_getElem?_getD]
      simp at hi
      simp [List.getElem?_eq_none hi]

theorem foldl_step_empty (resolve : addr_resolve_t) (strPort : CStr) (size k : Nat)
    (st : AddrsState) :
    (List.replicate k ([] : CStr)).foldl (get_addrs_step resolve strPort size) st = st := by
  induction k with
  | zero => rfl
  | succ k ih => simp [List.replicate_succ, get_addrs_step, ih]

theorem size_sub_pos (size k : Nat) (hsize : size < SIZE_T_MOD) (hk : k < size) :
    0 < size_sub size k := by
  unfold size_sub
  have h1 : size % SIZE_T_MOD = size := Nat.mod_eq_of_lt hsize
  have h2 : k % SIZE_T_MOD = k := Nat.mod_eq_of_lt (by omega)
  rw [h1, h2]
  have h3 : size + SIZE_T_MOD - k = (size - k) + SIZE_T_MOD := by omega
  rw [h3, Nat.add_mod_right, Nat.mod_eq_of_lt (by omega)]
  omega

theorem place_append (base : Nat) (xs ys : List addr_record_t) :
    place base (xs ++ ys) = place base xs ++ place (base + xs.length) ys := by
  induction xs generalizing base with
  | nil => simp [place]
  | cons x xs ih => simp [place, ih, Nat.add_assoc, Nat.add_comm 1]

theorem foldl_step_one_each (resolve : addr_resolve_t) (strPort : CStr) (size : Nat)
    (r : CStr → addr_record_t) (hsize : size < SIZE_T_MOD) (texts : List CStr) :
    ∀ st : AddrsState,
    st.records_count + (texts.filter (fun a => a ≠ [])).length ≤ size →
    (∀ a ∈ texts, a ≠ [] → ∀ count, 0 < count →
      resolve a strPort .SOCK_DGRAM count = ⟨1, [r a]⟩) →
    (texts.foldl (get_addrs_step resolve strPort size) st).records_count
        = st.records_count + (texts.filter (fun a => a ≠ [])).length ∧
    ((texts.foldl (get_addrs_step resolve strPort size) st).calls.map
        (fun c => (c.hostname, c.service, c.kind)))
        = st.calls.map (fun c => (c.hostname, c.service, c.kind))
          ++ (texts.filter (fun a => a ≠ [])).map (fun a => (a, strPort, socktype.SOCK_DGRAM)) ∧
    (texts.foldl (get_addrs_step resolve strPort size) st).writes
        = st.writes ++ place st.records_count ((texts.filter (fun a => a ≠ [])).map r) := by
  induction texts with
  | nil => intro st _ _; simp [place]
  | cons a rest ih =>
    intro st hcap hres
    by_cases ha : a = []
    · subst ha
      have hrest := ih st (by simpa using hcap) (fun b hb => hres b (List.mem_cons_of_mem _ hb))
      simpa [get_addrs_step] using hrest
    · have hpos : 0 < size_sub size st.records_count := by
        apply size_sub_pos size _ hsize
        simp [ha] at hcap
        omega
      have hcall := hres a (List.mem_cons_self _ _) ha _ hpos
      have hlen : a.length ≠ 0 := by
        intro h0; exact ha (List.length_eq_zero.mp h0)
      have hstep : get_addrs_step resolve strPort size st a
          = { records_count := st.records_count + 1
              calls := st.calls ++ [⟨a, strPort, .SOCK_DGRAM, st.records_count,
                        size_sub size st.records_count⟩]
              writes := st.writes ++ [(st.records_count, r a)] } := by
        simp [get_addrs_step, ha, hcall, place]
      have hrest := ih (get_addrs_step resolve strPort size st a)
        (by rw [hstep]; simp [ha] at hcap; simp; omega)
        (fun b hb => hres b (List.mem_cons_of_mem _ hb))
      rw [hstep] at hrest
      obtain ⟨h1, h2, h3⟩ := hrest
      simp only [List.foldl_cons, hstep]
      refine ⟨?_, ?_, ?_⟩
      · rw [h1]; simp [ha]; omega
      · rw [h2]; simp [ha]
      · rw [h3]; simp [ha, place]

/-- C3: when the host callback leaves `texts` and `port`, every non-empty text
resolves to one record and the capacity is at least the number of non-empty
texts, `conn_third_get_addrs` returns the number of non-empty texts, calls the
resolver once for each non-empty text, in order, with the decimal text of the
port and never with an empty text, and stores the records at the indices
0, 1, 2, ... in the order of the texts. -/
theorem conn_third_get_addrs_one_each (ICE_MAX_CANDIDATES_COUNT : Nat)
    (resolve : addr_resolve_t) (config : juice_config_t) (cb : cb_third_get_addrs_t)
    (size : Nat) (texts : List CStr) (port : Nat) (r : CStr → addr_record_t)
    (hcb : config.cb_third_get_addrs = some cb)
    (hout : cb (ICE_MAX_CANDIDATES_COUNT - 1) 128 config.user_ptr = (texts, port))
    (hlen : texts.length ≤ ICE_MAX_CANDIDATES_COUNT - 1)
    (hport : port < 65536) (hsize : size < SIZE_T_MOD)
    (hcap : (texts.filter (fun a => a ≠ [])).length ≤ size)
    (hres : ∀ a ∈ texts, a ≠ [] → ∀ count, 0 < count →
      resolve a (fmt_d port) .SOCK_DGRAM count = ⟨1, [r a]⟩) :
    (conn_third_get_addrs ICE_MAX_CANDIDATES_COUNT resolve config size).ret
        = ((texts.filter (fun a => a ≠ [])).length : Int) ∧
    (conn_third_get_addrs ICE_MAX_CANDIDATES_COUNT resolve config size).calls.map
        (fun c => (c.hostname, c.service, c.kind))
        = (texts.filter (fun a => a ≠ [])).map (fun a => (a, fmt_d port, socktype.SOCK_DGRAM)) ∧
    (∀ c ∈ (conn_third_get_addrs ICE_MAX_CANDIDATES_COUNT resolve config size).calls,
        c.hostname ≠ []) ∧
    (conn_third_get_addrs ICE_MAX_CANDIDATES_COUNT resolve config size).writes
        = place 0 ((texts.filter (fun a => a ≠ [])).map r) := by
  have hmod : port % 65536 = port := Nat.mod_eq_of_lt hport
  have hfold := foldl_step_one_each resolve (fmt_d port) size r hsize texts ⟨0, [], []⟩
    (by simpa using hcap) hres
  obtain ⟨h1, h2, h3⟩ := hfold
  have hrun : conn_third_get_addrs ICE_MAX_CANDIDATES_COUNT resolve config size
      = { ret := ((texts.foldl (get_addrs_step resolve (fmt_d port) size) ⟨0, [], []⟩).records_count : Int)
          calls := (texts.foldl (get_addrs_step resolve (fmt_d port) size) ⟨0, [], []⟩).calls
          writes := (texts.foldl (get_addrs_step resolve (fmt_d port) size) ⟨0, [], []⟩).writes } := by
    simp only [conn_third_get_addrs, hcb, hout, hmod, scratch_eq _ _ hlen, List.foldl_append,
      foldl_step_empty]
  rw [hrun]
  have hcalls : (texts.foldl (get_addrs_step resolve (fmt_d port) size) ⟨0, [], []⟩).calls.map
        (fun c => (c.hostname, c.service, c.kind))
        = (texts.filter (fun a => a ≠ [])).map (fun a => (a, fmt_d port, socktype.SOCK_DGRAM)) := by
    simpa using h2
  refine ⟨?_, hcalls, ?_, ?_⟩
  · simp [h1]
  · intro c hc hempty
    have hmem : (c.hostname, c.service, c.kind)
        ∈ (texts.filter (fun a => a ≠ [])).map (fun a => (a, fmt_d port, socktype.SOCK_DGRAM)) := by
      rw [← hcalls]
      exact List.mem_map_of_mem _ hc
    obtain ⟨a, ha, heq⟩ := List.mem_map.mp hmem
    have hne : a ≠ [] := by simpa using (List.mem_filter.mp ha).2
    have : a = c.hostname := congrArg Prod.fst heq
    exact hne (this.trans hempty)
  · simpa using h3

theorem conn_third_get_addrs_scenario :
    (conn_third_get_addrs 20 demo_resolve_one
        (addrs_config ["10.0.0.5".toList, [], "203.0.113.9".toList] 4000) 2).ret = 2 ∧
    (conn_third_get_addrs 20 demo_resolve_one
        (addrs_config ["10.0.0.5".toList, [], "203.0.113.9".toList] 4000) 2).calls.map
        (fun c => (c.hostname, c.service, c.kind))
        = [("10.0.0.5".toList, "4000".toList, socktype.SOCK_DGRAM),
           ("203.0.113.9".toList, "4000".toList, socktype.SOCK_DGRAM)] ∧
    (conn_third_get_addrs 20 demo_resolve_one
        (addrs_config ["10.0.0.5".toList, [], "203.0.113.9".toList] 4000) 2).writes
        = [(0, demo_record "10.0.0.5".toList), (1, demo_record "203.0.113.9".toList)] := by
  have h := conn_third_get_addrs_one_each 20 demo_resolve_one
    (addrs_config ["10.0.0.5".toList, [], "203.0.113.9".toList] 4000)
    (fun _ _ _ => (["10.0.0.5".toList, [], "203.0.113.9".toList], 4000)) 2
    ["10.0.0.5".toList, [], "203.0.113.9".toList] 4000 demo_record rfl rfl
    (by decide) (by decide) (by decide) (by decide)
    (by intro a _ _ count hc; simp [demo_resolve_one, hc])
  exact ⟨h.1, h.2.1, h.2.2.2⟩

/-- C1, the code at a failing input: with a capacity of 1 and three resolvable
texts from the host, `conn_third_get_addrs` returns 3, passes the capacities
1, 0 and 2^64 - 1 to the resolver, and stores a record at index 2 of the
one-slot buffer; the resolver stores no more records than the capacity it is
passed. -/
theorem conn_third_get_addrs_overrun :
    (∀ hostname service kind count,
      (demo_resolve_one hostname service kind count).written.length ≤ count) ∧
    (conn_third_get_addrs 20 demo_resolve_one
        (addrs_config ["10.0.0.5".toList, "10.0.0.6".toList, "10.0.0.7".toList] 4000) 1).ret = 3 ∧
    (conn_third_get_addrs 20 demo_resolve_one
        (addrs_config ["10.0.0.5".toList, "10.0.0.6".toList, "10.0.0.7".toList] 4000) 1).calls.map
        (fun c => (c.offset, c.count)) = [(0, 1), (1, 0), (2, 2 ^ 64 - 1)] ∧
    (conn_third_get_addrs 20 demo_resolve_one
        (addrs_config ["10.0.0.5".toList, "10.0.0.6".toList, "10.0.0.7".toList] 4000) 1).writes
        = [(0, demo_record "10.0.0.5".toList), (2, demo_record "10.0.0.7".toList)] := by
  refine ⟨?_, by decide, by decide, by decide⟩
  intro hostname service kind count
  unfold demo_resolve_one
  by_cases h : 0 < count
  · simp [h]; omega
  · simp [h]

/-- C4, the code at a failing input: with a capacity of 4 and the host texts
`localhost` (two addresses) and `10.0.0.5` (one address), `conn_third_get_addrs`
returns 2 after three records were stored; the second record of `localhost`,
stored at index 1, is overwritten by the record of `10.0.0.5`. -/
theorem conn_third_get_addrs_overwrite :
    (conn_third_get_addrs 20 demo_resolve_dual
        (addrs_config ["localhost".toList, "10.0.0.5".toList] 4000) 4).ret = 2 ∧
    (conn_third_get_addrs 20 demo_resolve_dual
        (addrs_config ["localhost".toList, "10.0.0.5".toList] 4000) 4).writes
        = [(0, demo_record "127.0.0.1".toList), (1, demo_record "::1".toList),
           (1, demo_record "10.0.0.5".toList)] ∧
    buffer_after (conn_third_get_addrs 20 demo_resolve_dual
        (addrs_config ["localhost".toList, "10.0.0.5".toList] 4000) 4).writes 1
        = some (demo_record "10.0.0.5".toList) := by
  refine ⟨by decide, by decide, by decide⟩


/-! ## Theorems: lifecycle -/

/-- C9: `conn_third_init` returns 0 exactly when both the allocation and the
thread creation succeed; when the thread creation fails it returns -1, leaves
`agent->conn_impl` null and frees the block it allocated; when the allocation
fails it returns -1 and never calls `thread_init`. -/
theorem conn_third_init_result (agent : juice_agent_t) (calloc_ok : Bool)
    (thread_init_ret : Int) (handle : Nat) :
    ((conn_third_init agent calloc_ok thread_init_ret handle).ret = 0
        ↔ calloc_ok = true ∧ thread_init_ret = 0) ∧
    (calloc_ok = true → thread_init_ret ≠ 0 →
      (conn_third_init agent calloc_ok thread_init_ret handle).ret = -1 ∧
      (conn_third_init agent calloc_ok thread_init_ret handle).agent.conn_impl = none ∧
      (conn_third_init agent calloc_ok thread_init_ret handle).events
        = [.calloc true, .mutex_init, .thread_init thread_init_ret, .free]) ∧
    (calloc_ok = false →
      (conn_third_init agent calloc_ok thread_init_ret handle).ret = -1 ∧
      (conn_third_init agent calloc_ok thread_init_ret handle).agent = agent ∧
      (conn_third_init agent calloc_ok thread_init_ret handle).events = [.calloc false]) := by
  refine ⟨?_, ?_, ?_⟩
  · cases calloc_ok
    · simp [conn_third_init]
    · by_cases h : thread_init_ret = 0 <;> simp [conn_third_init, h]
  · intro hc ht
    simp [conn_third_init, hc, ht]
  · intro hc
    simp [conn_third_init, hc]

theorem conn_third_init_thread_failure :
    (conn_third_init ⟨none⟩ true 11 5).ret = -1 ∧
    (conn_third_init ⟨none⟩ true 11 5).agent.conn_impl = none ∧
    (conn_third_init ⟨none⟩ true 11 5).events
      = [.calloc true, .mutex_init, .thread_init 11, .free] ∧
    (conn_third_init ⟨none⟩ false 0 5).ret = -1 ∧
    (conn_third_init ⟨none⟩ false 0 5).events = [.calloc false] ∧
    (conn_third_init ⟨none⟩ true 0 5).ret = 0 := by
  have h1 := (conn_third_init_result ⟨none⟩ true 11 5).2.1 rfl (by decide)
  have h2 := (conn_third_init_result ⟨none⟩ false 0 5).2.2 rfl
  have h3 := (conn_third_init_result ⟨none⟩ true 0 5).1.mpr ⟨rfl, rfl⟩
  exact ⟨h1.1, h1.2.1, h1.2.2, h2.1, h2.2.2, h3⟩

/-- C8: when no other thread holds the lock (it is free, or the calling thread
holds it already, any number of times), `conn_third_interrupt` completes, returns
0 and leaves the state as it found it except that `next_timestamp` is the current
time: `stopped` and the lock, with the caller's hold count, are unchanged. -/
theorem conn_third_interrupt_sets_deadline (t : Tid) (now : timestamp_t)
    (conn_impl : conn_impl_t)
    (hlock : ∀ o n, conn_impl.mutex.held = some (o, n) → o = t) :
    conn_third_interrupt t now conn_impl
      = some ({ conn_impl with next_timestamp := now }, 0) := by
  obtain ⟨thread, next, ⟨held⟩, stopped⟩ := conn_impl
  cases held with
  | none => simp [conn_third_interrupt, mutex_lock, mutex_unlock]
  | some p =>
    obtain ⟨o, n⟩ := p
    have ho : o = t := hlock o n rfl
    subst ho
    simp [conn_third_interrupt, mutex_lock, mutex_unlock]

theorem conn_third_interrupt_reentrant :
    conn_third_interrupt .user 42 demo_impl
      = some ({ thread := 1, next_timestamp := 42, mutex := ⟨some (.user, 1)⟩,
                stopped := false }, 0) :=
  conn_third_interrupt_sets_deadline .user 42 demo_impl
    (by intro o n h; simp [demo_impl] at h; exact h.1.symm)

/-! ## Theorems: the worker loop -/

theorem sys_lock_cases (t : Tid) (s : Sys) (k : Sys → Sys) :
    sys_lock t s k = s ∨ ∃ m, sys_lock t s k = k { s with impl := { s.impl with mutex := m } } := by
  unfold sys_lock
  split
  · right; exact ⟨_, rfl⟩
  · left; rfl

theorem sys_unlock_cases (t : Tid) (s : Sys) (k : Sys → Sys) :
    sys_unlock t s k = s ∨ ∃ m, sys_unlock t s k = k { s with impl := { s.impl with mutex := m } } := by
  unfold sys_unlock
  split
  · right; exact ⟨_, rfl⟩
  · left; rfl

theorem run_step_inv6 (tk : Tick) (s : Sys) (h : Inv6 s) : Inv6 (run_step tk s) := by
  obtain ⟨h1, h2, h3⟩ := h
  unfold run_step
  cases hpc : s.run_pc
  case L107 =>
    simp only [hpc, RunPc.before_update, forall_true_left] at h3
    simp [Inv6, sys_write_now, List.countP_append, Ev.start_after_stop, h3, RunPc.before_update]
  case L109 =>
    rcases sys_lock_cases .runner s (fun s => { s with run_pc := .L110 }) with h | ⟨m, h⟩
    · simp only [h]; exact ⟨h1, h2, h3⟩
    · simp only [h]; exact ⟨h1, h2, by simp [RunPc.before_update]⟩
  case L110 =>
    by_cases hs : s.impl.stopped = true
    · simp only [hs, if_true]; exact ⟨h1, h2, by simp [RunPc.before_update]⟩
    · simp only [hs]
      have hs0 : s.impl.stopped = false := by simpa using hs
      exact ⟨h1, h2, fun _ => h2 hs0⟩
  case L111 =>
    rcases sys_unlock_cases .runner s (fun s => { s with run_pc := .L127 }) with h | ⟨m, h⟩
    · simp only [h]; exact ⟨h1, h2, h3⟩
    · simp only [h]; exact ⟨h1, h2, by simp [RunPc.before_update]⟩
  case L114 =>
    simp only [hpc, RunPc.before_update, forall_true_left] at h3
    rcases sys_unlock_cases .runner s (fun s => { s with run_pc := .L116 }) with h | ⟨m, h⟩
    · simp only [h]; exact ⟨h1, h2, fun _ => h3⟩
    · simp only [h]; exact ⟨h1, h2, fun _ => h3⟩
  case L116 =>
    simp only [hpc, RunPc.before_update, forall_true_left] at h3
    exact ⟨h1, h2, fun _ => h3⟩
  case L118 =>
    simp only [hpc, RunPc.before_update, forall_true_left] at h3
    dsimp only
    split <;> exact ⟨h1, h2, fun _ => h3⟩
  case L119 =>
    simp only [hpc, RunPc.before_update, forall_true_left] at h3
    cases hst : s.impl.stopped <;>
      simp [Inv6, List.countP_append, Ev.start_after_stop, h3, RunPc.before_update, hst]
  case L119_ret =>
    refine ⟨?_, ?_, ?_⟩
    · simpa [List.countP_append, Ev.start_after_stop] using h1
    · simpa [List.countP_append, Ev.start_after_stop] using h2
    · intro hb
      by_cases hr : tk.ret = 0 <;> simp [hr, RunPc.before_update] at hb
  case L127 => exact ⟨h1, h2, h3⟩

theorem Frame.refl (s : Sys) : Frame s s := ⟨rfl, rfl, rfl, rfl, id⟩

theorem clean_step_frame (tk : Tick) (s : Sys) : Frame s (clean_step tk s) := by
  unfold clean_step
  cases hpc : s.clean_pc
  case L69 =>
    rcases sys_lock_cases .caller s (fun s => { s with clean_pc := .L70 }) with h | ⟨m, h⟩ <;>
      simp only [h] <;> exact ⟨rfl, rfl, rfl, rfl, id⟩
  case L70 =>
    simp [Frame, List.countP_append, Ev.start_after_stop, Ev.is_start, update_rets,
      List.filterMap_append]
  case L71 =>
    rcases sys_unlock_cases .caller s (fun s => { s with clean_pc := .L73 .L97 }) with h | ⟨m, h⟩ <;>
      simp only [h] <;> exact ⟨rfl, rfl, rfl, rfl, id⟩
  case L73 p =>
    cases p
    case L97 =>
      rcases sys_lock_cases .caller s (fun s => { s with clean_pc := .L73 .L98 }) with h | ⟨m, h⟩ <;>
        simp only [h] <;> exact ⟨rfl, rfl, rfl, rfl, id⟩
    case L98 =>
      simp [Frame, sys_write_now, List.countP_append, Ev.start_after_stop, Ev.is_start,
        update_rets, List.filterMap_append]
    case L99 =>
      rcases sys_unlock_cases .caller s (fun s => { s with clean_pc := .L76 }) with h | ⟨m, h⟩ <;>
        simp only [h] <;> exact ⟨rfl, rfl, rfl, rfl, id⟩
  case L76 =>
    dsimp only
    split <;> exact ⟨rfl, rfl, rfl, rfl, id⟩
  case L78 => exact ⟨rfl, rfl, rfl, rfl, id⟩
  case done => exact ⟨rfl, rfl, rfl, rfl, id⟩

theorem user_step_frame (tk : Tick) (s : Sys) : Frame s (user_step tk s) := by
  unfold user_step
  cases hpc : s.user_pc
  case L97 =>
    rcases sys_lock_cases .user s (fun s => { s with user_pc := .L98 }) with h | ⟨m, h⟩ <;>
      simp only [h] <;> exact ⟨rfl, rfl, rfl, rfl, id⟩
  case L98 =>
    simp [Frame, sys_write_now, List.countP_append, Ev.start_after_stop, Ev.is_start,
      update_rets, List.filterMap_append]
  case L99 =>
    rcases sys_unlock_cases .user s (fun s => { s with user_pc := .L97 }) with h | ⟨m, h⟩ <;>
      simp only [h] <;> exact ⟨rfl, rfl, rfl, rfl, id⟩

theorem frame_inv6 (s s' : Sys) (hf : Frame s s') (h : Inv6 s) : Inv6 s' := by
  obtain ⟨f1, f2, _, _, f5⟩ := hf
  obtain ⟨h1, h2, h3⟩ := h
  refine ⟨by rw [f2]; exact h1, fun hs => by rw [f2]; exact h2 (f5 hs), fun hb => ?_⟩
  rw [f2]; rw [f1] at hb; exact h3 hb

theorem step_inv6 (s : Sys) (tk : Tick) (h : Inv6 s) : Inv6 (step s tk) := by
  unfold step
  cases tk.who
  · exact run_step_inv6 tk s h
  · exact frame_inv6 _ _ (clean_step_frame tk s) h
  · exact frame_inv6 _ _ (user_step_frame tk s) h

theorem foldl_step_inv6 (ticks : List Tick) : ∀ s, Inv6 s → Inv6 (ticks.foldl step s) := by
  induction ticks with
  | nil => intro s h; exact h
  | cons tk rest ih => intro s h; exact ih _ (step_inv6 s tk h)

theorem init_inv6 : Inv6 Sys.init := by
  simp [Inv6, Sys.init]

theorem update_rets_append (l1 l2 : List Ev) :
    update_rets (l1 ++ l2) = update_rets l1 ++ update_rets l2 := by
  simp [update_rets, List.filterMap_append]

theorem inv7_move (s : Sys) (pc : RunPc) (impl : conn_impl_t) (h : Inv7 s)
    (hs : s.run_pc ≠ .L119_ret) (hs' : s.run_pc ≠ .L127) (hpc : pc ≠ .L119_ret) :
    Inv7 { s with run_pc := pc, impl := impl } :=
  ⟨fun e => absurd e hpc, fun _ => h.2.1 hs, fun _ => h.2.2.1 hs', h.2.2.2⟩

theorem run_step_inv7 (tk : Tick) (s : Sys) (h : Inv7 s) : Inv7 (run_step tk s) := by
  unfold run_step
  cases hpc : s.run_pc
  case L107 =>
    have h2 := h.2.1 (by rw [hpc]; decide)
    have h3 := h.2.2.1 (by rw [hpc]; decide)
    have hr : update_rets (s.log ++ [Ev.write_next .runner (holds .runner s)])
        = update_rets s.log := by
      rw [update_rets_append]; simp [update_rets]
    refine ⟨fun e => by simp at e, fun _ => ?_, fun _ => ?_, ?_⟩
    · show List.countP Ev.is_start (s.log ++ [Ev.write_next .runner (holds .runner s)])
        = (update_rets (s.log ++ [Ev.write_next .runner (holds .runner s)])).length
      rw [hr, List.countP_append, h2]; simp [Ev.is_start]
    · show ∀ r ∈ update_rets (s.log ++ [Ev.write_next .runner (holds .runner s)]), r = 0
      rw [hr]; exact h3
    · show ∀ r ∈ (update_rets (s.log ++ [Ev.write_next .runner (holds .runner s)])).dropLast,
        r = 0
      rw [hr]; exact h.2.2.2
  case L109 =>
    rcases sys_lock_cases .runner s (fun s => { s with run_pc := .L110 }) with e | ⟨m, e⟩
    · simp only [e]; exact h
    · simp only [e]
      exact inv7_move s .L110 _ h (by rw [hpc]; decide) (by rw [hpc]; decide) (by decide)
  case L110 =>
    dsimp only
    split
    · exact inv7_move s .L111 s.impl h (by rw [hpc]; decide) (by rw [hpc]; decide) (by decide)
    · exact inv7_move s .L114 s.impl h (by rw [hpc]; decide) (by rw [hpc]; decide) (by decide)
  case L111 =>
    rcases sys_unlock_cases .runner s (fun s => { s with run_pc := .L127 }) with e | ⟨m, e⟩
    · simp only [e]; exact h
    · simp only [e]
      exact inv7_move s .L127 _ h (by rw [hpc]; decide) (by rw [hpc]; decide) (by decide)
  case L114 =>
    rcases sys_unlock_cases .runner s (fun s => { s with run_pc := .L116 }) with e | ⟨m, e⟩
    · simp only [e]; exact h
    · simp only [e]
      exact inv7_move s .L116 _ h (by rw [hpc]; decide) (by rw [hpc]; decide) (by decide)
  case L116 =>
    exact inv7_move s .L118 s.impl h (by rw [hpc]; decide) (by rw [hpc]; decide) (by decide)
  case L118 =>
    dsimp only
    split
    · exact inv7_move s .L119 s.impl h (by rw [hpc]; decide) (by rw [hpc]; decide) (by decide)
    · exact inv7_move s .L109 s.impl h (by rw [hpc]; decide) (by rw [hpc]; decide) (by decide)
  case L119 =>
    have h2 := h.2.1 (by rw [hpc]; decide)
    have h3 := h.2.2.1 (by rw [hpc]; decide)
    have hr : update_rets (s.log ++ [Ev.update_start s.impl.stopped (holds .runner s)])
        = update_rets s.log := by
      rw [update_rets_append]; simp [update_rets]
    refine ⟨fun _ => ?_, fun e => by simp at e, fun _ => ?_, ?_⟩
    · show List.countP Ev.is_start (s.log ++ [Ev.update_start s.impl.stopped (holds .runner s)])
        = (update_rets (s.log ++ [Ev.update_start s.impl.stopped (holds .runner s)])).length + 1
      rw [hr, List.countP_append, h2]; simp [Ev.is_start]
    · show ∀ r ∈ update_rets (s.log ++ [Ev.update_start s.impl.stopped (holds .runner s)]), r = 0
      rw [hr]; exact h3
    · show ∀ r ∈ (update_rets
        (s.log ++ [Ev.update_start s.impl.stopped (holds .runner s)])).dropLast, r = 0
      rw [hr]; exact h.2.2.2
  case L119_ret =>
    have h1 := h.1 hpc
    have h3 := h.2.2.1 (by rw [hpc]; decide)
    have hr : update_rets (s.log ++ [Ev.write_next .runner (holds .runner s), Ev.update_ret tk.ret])
        = update_rets s.log ++ [tk.ret] := by
      rw [update_rets_append]; simp [update_rets]
    refine ⟨fun e => ?_, fun _ => ?_, fun e => ?_, ?_⟩
    · exfalso
      by_cases hz : tk.ret = 0 <;> simp [hz] at e
    · show List.countP Ev.is_start
          (s.log ++ [Ev.write_next .runner (holds .runner s), Ev.update_ret tk.ret])
        = (update_rets
          (s.log ++ [Ev.write_next .runner (holds .runner s), Ev.update_ret tk.ret])).length
      rw [hr, List.countP_append, h1]; simp [Ev.is_start]
    · show ∀ r ∈ update_rets
          (s.log ++ [Ev.write_next .runner (holds .runner s), Ev.update_ret tk.ret]), r = 0
      rw [hr]
      have hz : tk.ret = 0 := by
        by_contra hz
        simp [hz] at e
      intro r hr'
      rcases List.mem_append.mp hr' with hm | hm
      · exact h3 r hm
      · simp at hm; rw [hm, hz]
    · show ∀ r ∈ (update_rets
          (s.log ++ [Ev.write_next .runner (holds .runner s), Ev.update_ret tk.ret])).dropLast,
        r = 0
      rw [hr, List.dropLast_concat]; exact h3
  case L127 => exact h

theorem frame_inv7 (s s' : Sys) (hf : Frame s s') (h : Inv7 s) : Inv7 s' := by
  obtain ⟨f1, _, f3, f4, _⟩ := hf
  unfold Inv7
  rw [f1, f3, f4]
  exact h

theorem step_inv7 (s : Sys) (tk : Tick) (h : Inv7 s) : Inv7 (step s tk) := by
  unfold step
  cases tk.who
  · exact run_step_inv7 tk s h
  · exact frame_inv7 _ _ (clean_step_frame tk s) h
  · exact frame_inv7 _ _ (user_step_frame tk s) h

theorem foldl_step_inv7 (ticks : List Tick) : ∀ s, Inv7 s → Inv7 (ticks.foldl step s) := by
  induction ticks with
  | nil => intro s h; exact h
  | cons tk rest ih => intro s h; exact ih _ (step_inv7 s tk h)

theorem init_inv7 : Inv7 Sys.init := by
  simp [Inv7, Sys.init, update_rets]

/-- C6 as stated fails: in the schedule `race_ticks` cleanup sets `stopped` and
interrupts while the worker sleeps at line 116, and the worker then enters
`agent_conn_update` although `stopped` is set. -/
theorem update_starts_after_stop :
    (exec race_ticks).log
      = [.write_next .runner false, .write_stopped .caller true, .write_next .caller true,
         .update_start true false] ∧
    (exec race_ticks).log.countP Ev.start_after_stop = 1 := by
  constructor <;> decide

/-- C6 amended: in every interleaving of the worker with `conn_third_cleanup`
and with `conn_third_interrupt` calls of a host thread, at most one
`agent_conn_update` call starts while `stopped` is set. -/
theorem at_most_one_update_after_stop (ticks : List Tick) :
    (exec ticks).log.countP Ev.start_after_stop ≤ 1 :=
  (foldl_step_inv6 ticks Sys.init init_inv6).1

/-- C7: in every interleaving and for all clock readings and results of
`agent_conn_update`: when the call number `i + 1` has returned a non-zero value,
the worker has left its loop, and that call is the last one, in the trace of
returned calls as well as in the trace of started calls. -/
theorem run_stops_on_failure (ticks : List Tick) (i : Nat) (r : Int)
    (hi : (update_rets (exec ticks).log)[i]? = some r) (hr : r ≠ 0) :
    (exec ticks).run_pc = .L127 ∧
    (update_rets (exec ticks).log).length = i + 1 ∧
    (exec ticks).log.countP Ev.is_start = i + 1 := by
  have hinv : Inv7 (exec ticks) := foldl_step_inv7 ticks Sys.init init_inv7
  obtain ⟨_, h2, h3, h4⟩ := hinv
  have hlt : i < (update_rets (exec ticks).log).length := by
    by_contra hge
    rw [List.getElem?_eq_none (by omega)] at hi
    exact Option.noConfusion hi
  have hget : (update_rets (exec ticks).log)[i] = r := by
    rw [List.getElem?_eq_getElem hlt] at hi
    exact Option.some.inj hi
  have hmem : r ∈ update_rets (exec ticks).log := hget ▸ List.getElem_mem hlt
  have hpc : (exec ticks).run_pc = .L127 := by
    by_contra hne
    exact hr (h3 hne r hmem)
  have hlast : (update_rets (exec ticks).log).length = i + 1 := by
    by_contra hne
    have hd : i < (update_rets (exec ticks).log).dropLast.length := by
      rw [List.length_dropLast]; omega
    have hm : (update_rets (exec ticks).log).dropLast[i]
        ∈ (update_rets (exec ticks).log).dropLast := List.getElem_mem hd
    rw [List.getElem_dropLast] at hm
    rw [hget] at hm
    exact hr (h4 r hm)
  refine ⟨hpc, hlast, ?_⟩
  have hcount := h2 (by rw [hpc]; decide)
  rw [hcount, hlast]

theorem run_stops_at_third_call :
    update_rets (exec third_fails_ticks).log = [0, 0, 5] ∧
    (exec third_fails_ticks).run_pc = .L127 ∧
    (update_rets (exec third_fails_ticks).log).length = 3 ∧
    (exec third_fails_ticks).log.countP Ev.is_start = 3 :=
  ⟨by decide, run_stops_on_failure third_fails_ticks 2 5 (by decide) (by decide)⟩

/-- C10, the code at a failing input: the first statement of the worker stores
`next_timestamp` while the worker does not hold the lock, and so does the
`agent_conn_update` call of its first cycle. -/
theorem run_writes_deadline_unlocked :
    (exec [tick_run 5]).log = [.write_next .runner false] ∧
    (exec [tick_run 5]).impl.next_timestamp = 5 ∧
    (exec (tick_run 0 :: cycle_ticks 0 0)).log
      = [.write_next .runner false, .update_start false false, .write_next .runner false,
         .update_ret 0] := by
  refine ⟨by decide, by decide, by decide⟩

end ConnThird
